import Mathlib

/-!
Verification of the SAP MM ticket-solver application.

The repository consists of a UI page (`src/app/page.tsx`) and a ticket-analysis
engine (`@/lib/solver`, exposing `solveSapMMTicket`).  The UI definitions below
are translated from `page.tsx`; the engine definitions are modelled from the
design specification, which describes the Entity Extractor, the Scenario
Knowledge Base, the Classifier, the Result Assembler and the Public Entry
Point.  Strings are embedded as lists of characters so that substring matching
and formatting can be reasoned about directly.
-/

/-- Strings of the embedded program, represented as lists of characters. -/
abbrev Str := List Char

/-- Lower-case a working copy of the text, as the Entity Extractor does before
matching. -/
def lower (t : Str) : Str := t.map Char.toLower

/-- Whether a term occurs as a contiguous substring of the (lowered) text. -/
def containsTerm (lowered term : Str) : Bool := decide (term <:+: lowered)

/-- Deduplicate a list keeping the first occurrence of each element, preserving
first-seen order. -/
def dedupFirst {α : Type} [DecidableEq α] : List α → List α
  | [] => []
  | x :: xs => x :: (dedupFirst xs).filter (fun y => decide (y ≠ x))

/-- Accumulator-based scan collecting maximal runs of consecutive digits.
The accumulator holds the current run in reverse order. -/
def digitRunsAux : List Char → List Char → List Str
  | [], acc => if acc.isEmpty then [] else [acc.reverse]
  | c :: cs, acc =>
    if c.isDigit then digitRunsAux cs (c :: acc)
    else if acc.isEmpty then digitRunsAux cs []
    else acc.reverse :: digitRunsAux cs []

/-- All maximal runs of consecutive digits in the text, in order of
appearance, with their original characters. -/
def digitRuns (t : Str) : List Str := digitRunsAux t []

/-- Whether a digit run has the length of an SAP numeric identifier
(8 to 10 digits: purchase order, material, vendor or invoice numbers). -/
def validIdRun (r : Str) : Bool := decide (8 ≤ r.length ∧ r.length ≤ 10)

/-- JavaScript-style trim: remove leading and trailing whitespace.  Used by the
upload handler (`data.text.trim()` in `page.tsx`). -/
def trim (t : Str) : Str :=
  ((t.dropWhile Char.isWhitespace).reverse.dropWhile Char.isWhitespace).reverse

/-- Fold step selecting the highest-scored entry; on ties the earlier entry is
kept, so selection is stable in declaration order. -/
def best2 {α : Type} (b : α × Nat) (l : List (α × Nat)) : α × Nat :=
  l.foldl (fun acc y => if acc.2 < y.2 then y else acc) b

/-- Priority levels of a ticket. -/
inductive Priority where
  | low
  | medium
  | high
  | critical
deriving DecidableEq, Repr

/-- Numeric severity of a priority level: Critical > High > Medium > Low. -/
def severity : Priority → Nat
  | .low => 0
  | .medium => 1
  | .high => 2
  | .critical => 3

/-- Display name of a priority level, as rendered by the UI. -/
def priorityName : Priority → Str
  | .low => ("Low").toList
  | .medium => ("Medium").toList
  | .high => ("High").toList
  | .critical => ("Critical").toList

/-- Modelled from the spec: the `Signals` record produced by the Entity
Extractor of the missing solver module — keywords, document numbers, optional
priority hint and optional module hint. -/
structure Signals where
  keywords : List Str
  documentNumbers : List Str
  priorityHint : Option Priority
  moduleHint : Option Str
deriving DecidableEq, Repr

/-- Modelled from the spec: one piece of a content template of the missing
solver module; placeholders are substituted with the first extracted document
number or keyword, or a generic phrase when none was extracted. -/
inductive TemplatePart where
  | lit (s : Str)
  | docNumber
  | keyword
deriving DecidableEq, Repr

/-- Modelled from the spec: a scenario definition of the static knowledge base
of the missing solver module. -/
structure ScenarioDefinition where
  id : Str
  title : Str
  triggerTerms : List (Str × Nat)
  defaultModule : Str
  defaultPriority : Option Priority
  summaryTemplate : List TemplatePart
  rootCauseTemplate : List TemplatePart
  steps : List Str
  validations : List Str
  preventiveActions : List Str
  automationIdeas : List Str
  knowledgeSources : List Str
deriving DecidableEq, Repr

/-- Metadata block of a solve result (`metadata` field in `page.tsx`). -/
structure SolveMetadata where
  suspectedModule : Str
  priority : Option Priority
  keywords : List Str
  documentNumbers : List Str
deriving DecidableEq, Repr

/-- The `SolveResult` record consumed by the UI (`page.tsx`). -/
structure SolveResult where
  title : Str
  summary : Str
  rootCause : Str
  confidence : ℚ
  steps : List Str
  validations : List Str
  preventiveActions : List Str
  automationIdeas : List Str
  knowledgeSources : List Str
  metadata : SolveMetadata
deriving DecidableEq, Repr

/-- Modelled from the spec: the explicit priority vocabulary of the missing
solver module, one term list per level, matched case-insensitively. -/
def priorityTerms : Priority → List Str
  | .critical => [("urgent").toList, ("critical").toList, ("p1").toList, ("emergency").toList]
  | .high => [("high priority").toList, ("p2").toList, ("asap").toList]
  | .medium => [("medium priority").toList, ("p3").toList]
  | .low => [("low priority").toList, ("p4").toList]

/-- Whether the lowered text contains a term of the given priority level. -/
def hasPriorityTerm (p : Priority) (lowered : Str) : Bool :=
  (priorityTerms p).any (fun term => containsTerm lowered term)

/-- Modelled from the spec: priority detection of the missing solver module.
When conflicting hints appear the highest-severity hint wins, which is realised
by testing the levels in decreasing severity order. -/
def detectPriority (lowered : Str) : Option Priority :=
  if hasPriorityTerm .critical lowered then some .critical
  else if hasPriorityTerm .high lowered then some .high
  else if hasPriorityTerm .medium lowered then some .medium
  else if hasPriorityTerm .low lowered then some .low
  else none

/-- Modelled from the spec: keyword clusters mapping to SAP MM sub-areas, in
declared priority order, for module detection by the missing solver module. -/
def moduleClusters : List (Str × List Str) :=
  [(("Inventory Management").toList,
    [("goods receipt").toList, ("stock").toList, ("migo").toList,
     ("inventory").toList, ("movement type").toList]),
   (("Invoice Verification").toList,
    [("invoice").toList, ("miro").toList, ("price variance").toList,
     ("payment block").toList]),
   (("Purchasing").toList,
    [("purchase order").toList, ("vendor").toList,
     ("purchase requisition").toList, ("me21n").toList])]

/-- Modelled from the spec: module detection of the missing solver module.
The cluster with the most matched keywords wins; ties are broken by the
declared order; with no matches at all no module hint is produced. -/
def detectModule (lowered : Str) : Option Str :=
  match moduleClusters.map
      (fun c => (c.1, c.2.countP (fun term => containsTerm lowered term))) with
  | [] => none
  | x :: xs =>
    if (best2 x xs).2 = 0 then none else some (best2 x xs).1

/-- Modelled from the spec: the goods-receipt / stock-discrepancy scenario of
the knowledge base of the missing solver module. -/
def grScenario : ScenarioDefinition where
  id := ("goods-receipt-stock-discrepancy").toList
  title := ("Goods Receipt Stock Discrepancy").toList
  triggerTerms :=
    [(("goods receipt").toList, 4), (("stock").toList, 2), (("migo").toList, 3),
     (("movement type").toList, 3), (("material document").toList, 3),
     (("not updated").toList, 2)]
  defaultModule := ("Inventory Management").toList
  defaultPriority := some .high
  summaryTemplate :=
    [.lit (("A goods receipt posting did not update the stock situation as expected for ").toList),
     .docNumber,
     .lit ((". Review the material document flow and the movement types used.").toList)]
  rootCauseTemplate :=
    [.lit (("The movement type or posting period used for the goods receipt likely prevented the stock update related to ").toList),
     .keyword,
     .lit ((".").toList)]
  steps :=
    [("Open transaction MB51 and list the material documents for the affected material.").toList,
     ("Check the movement type of the goods receipt document in MIGO display mode.").toList,
     ("Verify the posting period and storage location in the material master.").toList,
     ("Reverse and repost the goods receipt with the correct movement type if needed.").toList]
  validations :=
    [("Stock overview MMBE shows the expected quantity after reposting.").toList,
     ("The material document list contains no cancelled duplicate postings.").toList]
  preventiveActions :=
    [("Restrict manual movement type selection in MIGO via user parameters.").toList]
  automationIdeas :=
    [("Schedule a daily report comparing goods receipts with stock changes.").toList]
  knowledgeSources :=
    [("SAP MM inventory management configuration guide.").toList]

/-- Modelled from the spec: the blocked-invoice / price-variance scenario of
the knowledge base of the missing solver module. -/
def ivScenario : ScenarioDefinition where
  id := ("invoice-block-price-variance").toList
  title := ("Invoice Blocked By Price Variance").toList
  triggerTerms :=
    [(("price variance").toList, 4), (("invoice block").toList, 4),
     (("blocked invoice").toList, 4), (("payment block").toList, 3),
     (("miro").toList, 3), (("invoice").toList, 1)]
  defaultModule := ("Invoice Verification").toList
  defaultPriority := some .medium
  summaryTemplate :=
    [.lit (("An incoming invoice is blocked for payment, most likely by a price or quantity variance, for ").toList),
     .docNumber,
     .lit ((". Compare the invoice values with the purchase order conditions.").toList)]
  rootCauseTemplate :=
    [.lit (("The invoice price deviates from the purchase order price beyond the tolerance keys, producing a block related to ").toList),
     .keyword,
     .lit ((".").toList)]
  steps :=
    [("Display the blocked invoice in MIR4 and inspect the blocking reasons.").toList,
     ("Compare invoice price and purchase order price in the item list.").toList,
     ("Adjust the purchase order price or request a credit memo from the vendor.").toList,
     ("Release the invoice in MRBR once the variance is resolved.").toList]
  validations :=
    [("MRBR no longer lists the invoice as blocked.").toList,
     ("The payment proposal includes the released invoice.").toList]
  preventiveActions :=
    [("Review tolerance keys PE and PP for realistic variance limits.").toList]
  automationIdeas :=
    [("Alert buyers automatically when invoices block on price variance.").toList]
  knowledgeSources :=
    [("SAP MM logistics invoice verification documentation.").toList]

/-- Modelled from the spec: the purchase-order processing scenario of the
knowledge base of the missing solver module. -/
def poScenario : ScenarioDefinition where
  id := ("purchase-order-issue").toList
  title := ("Purchase Order Processing Issue").toList
  triggerTerms :=
    [(("purchase order").toList, 3), (("purchase requisition").toList, 3),
     (("vendor").toList, 2), (("me21n").toList, 3), (("source list").toList, 2)]
  defaultModule := ("Purchasing").toList
  defaultPriority := some .medium
  summaryTemplate :=
    [.lit (("A purchase order could not be processed as expected for ").toList),
     .docNumber,
     .lit ((". Check the document status and the vendor master data.").toList)]
  rootCauseTemplate :=
    [.lit (("Incomplete vendor or source determination data is blocking the purchasing document related to ").toList),
     .keyword,
     .lit ((".").toList)]
  steps :=
    [("Open the purchase order in ME23N and review the header status.").toList,
     ("Check the vendor master for purchasing block indicators in XK03.").toList,
     ("Verify the source list and info records for the material.").toList]
  validations :=
    [("The purchase order prints or transmits without error messages.").toList]
  preventiveActions :=
    [("Run the vendor master completeness check before month end.").toList]
  automationIdeas :=
    [("Monitor purchase orders stuck in incomplete status with a daily query.").toList]
  knowledgeSources :=
    [("SAP MM purchasing configuration guide.").toList]

/-- Modelled from the spec: the fallback / unclassified scenario with zero
trigger terms and generic content, the last resort of the classifier of the
missing solver module. -/
def fallbackScenario : ScenarioDefinition where
  id := ("unclassified").toList
  title := ("General SAP MM Triage").toList
  triggerTerms := []
  defaultModule := ("General").toList
  defaultPriority := none
  summaryTemplate :=
    [.lit (("The ticket text could not be matched to a known SAP MM scenario. Use the generic triage checklist below.").toList)]
  rootCauseTemplate :=
    [.lit (("The description does not contain enough recognisable SAP MM vocabulary to isolate a root cause.").toList)]
  steps :=
    [("Ask the requester for the transaction code and the exact error message.").toList,
     ("Collect the affected document numbers and reproduce the issue.").toList,
     ("Route the ticket to the SAP MM team with the gathered details.").toList]
  validations :=
    [("The requester confirms the clarified problem statement.").toList]
  preventiveActions :=
    [("Provide a ticket template asking for transaction and document numbers.").toList]
  automationIdeas :=
    [("Detect tickets with missing details and request them automatically.").toList]
  knowledgeSources :=
    [("Internal SAP MM support playbook.").toList]

/-- Modelled from the spec: the static, ordered knowledge base of the missing
solver module.  It contains the reserved fallback scenario, declared first:
with zero trigger terms its score is always zero, so it never wins a positive
selection, and at an all-zero tie the earliest declaration is the fallback,
matching the documented last-resort rule. -/
def knowledgeBase : List ScenarioDefinition :=
  [fallbackScenario, grScenario, ivScenario, poScenario]

/-- Modelled from the spec: the controlled keyword vocabulary of the missing
solver module — the union of all trigger terms of the knowledge base plus the
module and priority vocabulary, deduplicated in first-seen order. -/
def vocabulary : List Str :=
  dedupFirst
    ((knowledgeBase.foldr (fun s acc => s.triggerTerms.map Prod.fst ++ acc) []) ++
     (moduleClusters.foldr (fun c acc => c.2 ++ acc) []) ++
     (priorityTerms .critical ++ priorityTerms .high ++
      priorityTerms .medium ++ priorityTerms .low))

/-- Modelled from the spec: the Entity Extractor of the missing solver module.
Keyword matching is case-insensitive on a lowered copy; document numbers keep
their original characters and first-seen order, deduplicated. -/
def extract (text : Str) : Signals where
  keywords := vocabulary.filter (fun term => containsTerm (lower text) term)
  documentNumbers := dedupFirst ((digitRuns text).filter validIdRun)
  priorityHint := detectPriority (lower text)
  moduleHint := detectModule (lower text)

/-- Modelled from the spec: the score of a scenario — the sum of the weights
of its trigger terms that occur among the extracted keywords. -/
def scenarioScore (s : ScenarioDefinition) (sig : Signals) : Nat :=
  (s.triggerTerms.map (fun tw => if tw.1 ∈ sig.keywords then tw.2 else 0)).sum

/-- Modelled from the spec: the fixed low confidence constant used for the
fallback scenario. -/
def fallbackConfidence : ℚ := 1 / 5

/-- Modelled from the spec: confidence of a matched scenario, the monotone
normalisation score / (score + K) with smoothing constant K = 4. -/
def matchConfidence (score : Nat) : ℚ := (score : ℚ) / ((score : ℚ) + 4)

/-- Modelled from the spec: selection of the highest-scored scenario from a
scored list; the earliest entry wins ties, and an empty list yields the
fallback scenario with score zero. -/
def pickBest : List (ScenarioDefinition × Nat) → ScenarioDefinition × Nat
  | [] => (fallbackScenario, 0)
  | x :: xs => best2 x xs

/-- Modelled from the spec: the Classifier of the missing solver module.
The scenario with the strictly highest score wins, earlier declarations win
ties, and a highest score of zero resolves to the fallback scenario with the
fixed low confidence constant. -/
def classify (sig : Signals) : ScenarioDefinition × ℚ :=
  if (pickBest (knowledgeBase.map (fun s => (s, scenarioScore s sig)))).2 = 0 then
    (fallbackScenario, fallbackConfidence)
  else
    ((pickBest (knowledgeBase.map (fun s => (s, scenarioScore s sig)))).1,
     matchConfidence (pickBest (knowledgeBase.map (fun s => (s, scenarioScore s sig)))).2)

/-- Render one template part against the extracted signals: placeholders take
the first extracted value or a generic phrase. -/
def renderPart (sig : Signals) : TemplatePart → Str
  | .lit s => s
  | .docNumber => sig.documentNumbers.headD (("the referenced document").toList)
  | .keyword => sig.keywords.headD (("the reported issue").toList)

/-- Modelled from the spec: template rendering of the Result Assembler of the
missing solver module; substitution never fails. -/
def renderTemplate (parts : List TemplatePart) (sig : Signals) : Str :=
  parts.foldr (fun part acc => renderPart sig part ++ acc) []

/-- Modelled from the spec: the Result Assembler of the missing solver module.
Signals are copied verbatim into the metadata; hints fall back to the scenario
defaults. -/
def assemble (scenario : ScenarioDefinition) (sig : Signals) (confidence : ℚ) :
    SolveResult where
  title := scenario.title
  summary := renderTemplate scenario.summaryTemplate sig
  rootCause := renderTemplate scenario.rootCauseTemplate sig
  confidence := confidence
  steps := scenario.steps
  validations := scenario.validations
  preventiveActions := scenario.preventiveActions
  automationIdeas := scenario.automationIdeas
  knowledgeSources := scenario.knowledgeSources
  metadata :=
    { suspectedModule := sig.moduleHint.getD scenario.defaultModule
      priority :=
        match sig.priorityHint with
        | some p => some p
        | none => scenario.defaultPriority
      keywords := sig.keywords
      documentNumbers := sig.documentNumbers }

/-- Modelled from the spec: the Public Entry Point of the missing solver
module, the pure composition extract - classify - assemble. -/
def solveSapMMTicket (text : Str) : SolveResult :=
  assemble (classify (extract text)).1 (extract text) (classify (extract text)).2

/-- Upload status of the UI (`UploadStatus` in `page.tsx`). -/
inductive UploadStatus where
  | idle
  | ocr
  | analysis
  | done
  | error
deriving DecidableEq, Repr

/-- The React state of `HomePage` in `page.tsx` that the claims concern
(image preview and processing time are omitted). -/
structure UIState where
  fileName : Str
  extractedText : Str
  status : UploadStatus
  progress : ℚ
  errorMsg : Option Str
  solution : Option SolveResult
deriving DecidableEq, Repr

/-- The initial React state of `HomePage` (`useState` initialisers). -/
def initialState : UIState where
  fileName := []
  extractedText := []
  status := .idle
  progress := 0
  errorMsg := none
  solution := none

/-- Net effect of the successful branch of `handleFileChange` in `page.tsx`:
the OCR text is trimmed, stored in the textarea state, and passed to
`solveSapMMTicket`. -/
def handleFileChangeSuccess (s : UIState) (name ocrText : Str) : UIState :=
  { s with
    fileName := name
    extractedText := trim ocrText
    status := .done
    progress := 1
    errorMsg := none
    solution := some (solveSapMMTicket (trim ocrText)) }

/-- Net effect of the failing branch of `handleFileChange` in `page.tsx`:
the extracted text is left unchanged and no solution is produced. -/
def handleFileChangeFailure (s : UIState) (name : Str) : UIState :=
  { s with
    fileName := name
    status := .error
    progress := 1 / 20
    errorMsg := some (("Unable to process the image. Please try another photo or check the file format.").toList)
    solution := none }

/-- Net effect of `handleAnalyzeText` in `page.tsx`: re-run the engine on the
current textarea content. -/
def handleAnalyzeText (s : UIState) : UIState :=
  { s with
    status := .done
    progress := 1
    solution := some (solveSapMMTicket s.extractedText) }

/-- Whether the Re-run Analysis button is disabled
(`disabled=\x7b!extractedText\x7d` in `page.tsx`: the empty string is falsy). -/
def rerunDisabled (s : UIState) : Bool := s.extractedText.isEmpty

/-- UI events that change the state of `HomePage`. -/
inductive UIEvent where
  | uploadSuccess (name ocrText : Str)
  | uploadFailure (name : Str)
  | editText (t : Str)
  | clickRerun
deriving DecidableEq, Repr

/-- One step of the UI state machine of `page.tsx`.  Clicking the disabled
Re-run button has no effect, so `handleAnalyzeText` only runs when the
extracted text is non-empty. -/
def uiStep (s : UIState) : UIEvent → UIState
  | .uploadSuccess name ocrText => handleFileChangeSuccess s name ocrText
  | .uploadFailure name => handleFileChangeFailure s name
  | .editText t => { s with extractedText := t }
  | .clickRerun => if s.extractedText = [] then s else handleAnalyzeText s

/-- One displayed item of the resolution panel in `page.tsx`. -/
inductive DisplayItem where
  | text (s : Str)
  | percent (n : ℤ)
  | orderedList (items : List Str)
  | unorderedList (items : List Str)
deriving DecidableEq, Repr

/-- JavaScript `Math.round`: round half toward positive infinity. -/
def jsRound (q : ℚ) : ℤ := ⌊q + 1 / 2⌋

/-- Comma-join used for keywords and document references in `page.tsx`. -/
def joinComma (xs : List Str) : Str := List.intercalate ((", ").toList) xs

/-- The resolution panel of `page.tsx`, lines 176 to 268, as the ordered list
of displayed items: scenario title, rounded confidence percentage, module
focus, optional priority, summary, root cause, ordered steps, the four
unordered lists, and the conditional joined keyword and document strings. -/
def renderSolution (r : SolveResult) : List DisplayItem :=
  [DisplayItem.text r.title,
   DisplayItem.percent (jsRound (r.confidence * 100)),
   DisplayItem.text r.metadata.suspectedModule] ++
  (match r.metadata.priority with
   | some p => [DisplayItem.text (priorityName p)]
   | none => []) ++
  [DisplayItem.text r.summary,
   DisplayItem.text r.rootCause,
   DisplayItem.orderedList r.steps,
   DisplayItem.unorderedList r.validations,
   DisplayItem.unorderedList r.preventiveActions,
   DisplayItem.unorderedList r.automationIdeas,
   DisplayItem.unorderedList r.knowledgeSources] ++
  (if r.metadata.keywords.isEmpty then []
   else [DisplayItem.text (joinComma r.metadata.keywords)]) ++
  (if r.metadata.documentNumbers.isEmpty then []
   else [DisplayItem.text (joinComma r.metadata.documentNumbers)])

/-- Concrete nonsense ticket text for the fallback checks. -/
def fallbackDemoText : Str := ("asdkj qweoiu").toList

/-- Concrete ticket text matching the goods-receipt scenario. -/
def grDemoText : Str := ("goods receipt stock not updated").toList

/-- Concrete ticket text with conflicting priority hints. -/
def priorityDemoText : Str := ("Low priority but urgent stock issue").toList

/-- Concrete ticket text exercising every optional part of the rendering. -/
def renderDemoText : Str := ("urgent goods receipt stock not updated PO 4500001234").toList

/-- Concrete UI state whose textarea holds non-empty ticket text. -/
def demoRerunState : UIState := { initialState with extractedText := ("ticket text").toList }

/-! ### Helper lemmas: deduplication -/

theorem mem_dedupFirst {α : Type} [DecidableEq α] (a : α) (l : List α) :
    a ∈ dedupFirst l ↔ a ∈ l := by
  induction l with
  | nil => simp [dedupFirst]
  | cons x xs ih =>
    simp only [dedupFirst, List.mem_cons, List.mem_filter, ih, decide_eq_true_eq]
    by_cases h : a = x <;> simp [h]

theorem dedupFirst_sublist {α : Type} [DecidableEq α] (l : List α) :
    List.Sublist (dedupFirst l) l := by
  induction l with
  | nil => simp [dedupFirst]
  | cons x xs ih =>
    rw [dedupFirst]
    exact List.Sublist.cons₂ x ((List.filter_sublist _).trans ih)

theorem dedupFirst_nodup {α : Type} [DecidableEq α] (l : List α) :
    (dedupFirst l).Nodup := by
  induction l with
  | nil => simp [dedupFirst]
  | cons x xs ih =>
    rw [dedupFirst, List.nodup_cons]
    refine ⟨?_, ih.filter _⟩
    intro hmem
    have h := List.of_mem_filter hmem
    simp at h

/-! ### Helper lemmas: substring containment -/

theorem infix_append_right {α : Type} {r u : List α} (v : List α) (h : r <:+: u) :
    r <:+: u ++ v := by
  obtain ⟨s, t, rfl⟩ := h
  exact ⟨s, t ++ v, by simp⟩

theorem infix_append_left {α : Type} {r u : List α} (v : List α) (h : r <:+: u) :
    r <:+: v ++ u := by
  obtain ⟨s, t, rfl⟩ := h
  exact ⟨v ++ s, t, by simp⟩

theorem lower_append (a b : Str) : lower (a ++ b) = lower a ++ lower b :=
  List.map_append Char.toLower a b

theorem containsTerm_mono (term t extra : Str)
    (h : containsTerm (lower t) term = true) :
    containsTerm (lower (t ++ extra)) term = true := by
  simp only [containsTerm, decide_eq_true_eq] at h ⊢
  rw [lower_append]
  exact infix_append_right _ h

/-! ### Helper lemmas: trimming -/

theorem dropWhile_head_false {α : Type} (p : α → Bool) (l : List α) (a : α)
    (h : (l.dropWhile p).head? = some a) : p a = false := by
  have hd := List.head?_dropWhile_not p l
  rw [h] at hd
  exact hd

theorem dropWhile_eq_self {α : Type} (p : α → Bool) (l : List α)
    (h : ∀ a, l.head? = some a → p a = false) : l.dropWhile p = l := by
  cases l with
  | nil => rfl
  | cons c cs => rw [List.dropWhile_cons, h c rfl]; simp

theorem dropWhile_idem {α : Type} (p : α → Bool) (l : List α) :
    (l.dropWhile p).dropWhile p = l.dropWhile p :=
  dropWhile_eq_self p _ (fun a ha => dropWhile_head_false p l a ha)

theorem trim_idem (t : Str) : trim (trim t) = trim t := by
  have hsuf := List.dropWhile_suffix (l := (t.dropWhile Char.isWhitespace).reverse)
    Char.isWhitespace
  obtain ⟨s, hs⟩ := hsuf
  have hpref : trim t ++ s.reverse = t.dropWhile Char.isWhitespace := by
    have := congrArg List.reverse hs
    simpa [trim] using this
  have hfix : (trim t).dropWhile Char.isWhitespace = trim t := by
    apply dropWhile_eq_self
    intro a ha
    apply dropWhile_head_false Char.isWhitespace t a
    rw [← hpref]
    cases htl : trim t with
    | nil => rw [htl] at ha; cases ha
    | cons b ub =>
      rw [htl] at ha
      simp at ha
      simp [ha]
  have hrev : (trim t).reverse =
      (t.dropWhile Char.isWhitespace).reverse.dropWhile Char.isWhitespace := by
    simp [trim]
  show ((((trim t).dropWhile Char.isWhitespace).reverse).dropWhile
      Char.isWhitespace).reverse = trim t
  rw [hfix, hrev, dropWhile_idem, ← hrev, List.reverse_reverse]

/-! ### Helper lemmas: stable argmax selection -/

theorem best2_cons {α : Type} (b y : α × Nat) (ys : List (α × Nat)) :
    best2 b (y :: ys) = best2 (if b.2 < y.2 then y else b) ys := rfl

theorem best2_mem {α : Type} (b : α × Nat) (l : List (α × Nat)) :
    best2 b l = b ∨ best2 b l ∈ l := by
  induction l generalizing b with
  | nil => exact Or.inl rfl
  | cons y ys ih =>
    rw [best2_cons]
    rcases ih (if b.2 < y.2 then y else b) with h | h
    · rw [h]
      split
      · exact Or.inr (List.mem_cons_self _ _)
      · exact Or.inl rfl
    · exact Or.inr (List.mem_cons_of_mem _ h)

theorem best2_eq_self {α : Type} (b : α × Nat) (l : List (α × Nat))
    (h : ∀ y ∈ l, y.2 ≤ b.2) : best2 b l = b := by
  induction l generalizing b with
  | nil => rfl
  | cons y ys ih =>
    rw [best2_cons, if_neg (not_lt.mpr (h y (List.mem_cons_self y ys)))]
    exact ih b (fun z hz => h z (List.mem_cons_of_mem _ hz))

theorem best2_append {α : Type} (b : α × Nat) (l₁ l₂ : List (α × Nat)) :
    best2 b (l₁ ++ l₂) = best2 (best2 b l₁) l₂ := by
  simp [best2, List.foldl_append]

theorem best2_first_max {α : Type} (b : α × Nat) (l₁ : List (α × Nat))
    (x : α × Nat) (l₂ : List (α × Nat)) (h₀ : b.2 < x.2)
    (h₁ : ∀ y ∈ l₁, y.2 < x.2) (h₂ : ∀ y ∈ l₂, y.2 ≤ x.2) :
    best2 b (l₁ ++ x :: l₂) = x := by
  rw [best2_append, best2_cons]
  have hr : (best2 b l₁).2 < x.2 := by
    rcases best2_mem b l₁ with h | h
    · rw [h]; exact h₀
    · exact h₁ _ h
  rw [if_pos hr]
  exact best2_eq_self x l₂ h₂

theorem pickBest_first_max (l₁ : List (ScenarioDefinition × Nat))
    (x : ScenarioDefinition × Nat) (l₂ : List (ScenarioDefinition × Nat))
    (h₁ : ∀ y ∈ l₁, y.2 < x.2) (h₂ : ∀ y ∈ l₂, y.2 ≤ x.2) :
    pickBest (l₁ ++ x :: l₂) = x := by
  cases l₁ with
  | nil =>
    show best2 x l₂ = x
    exact best2_eq_self x l₂ h₂
  | cons a l₁ =>
    show best2 a (l₁ ++ x :: l₂) = x
    exact best2_first_max a l₁ x l₂ (h₁ a (List.mem_cons_self _ _))
      (fun y hy => h₁ y (List.mem_cons_of_mem _ hy)) h₂

theorem pickBest_mem (l : List (ScenarioDefinition × Nat)) :
    pickBest l = (fallbackScenario, 0) ∨ pickBest l ∈ l := by
  cases l with
  | nil => exact Or.inl rfl
  | cons x xs =>
    right
    show best2 x xs ∈ x :: xs
    rcases best2_mem x xs with h | h
    · rw [h]; exact List.mem_cons_self _ _
    · exact List.mem_cons_of_mem _ h

theorem pickBest_score_zero (l : List (ScenarioDefinition × Nat))
    (h : ∀ y ∈ l, y.2 = 0) : (pickBest l).2 = 0 := by
  rcases pickBest_mem l with h' | h'
  · rw [h']
  · exact h _ h'

/-! ### Helper lemmas: classifier and confidence -/

theorem matchConfidence_nonneg (n : Nat) : 0 ≤ matchConfidence n :=
  div_nonneg (Nat.cast_nonneg n) (by positivity)

theorem matchConfidence_lt_one (n : Nat) : matchConfidence n < 1 := by
  rw [matchConfidence, div_lt_one (by positivity)]
  linarith [Nat.cast_nonneg (α := ℚ) n]

theorem matchConfidence_mono (m n : Nat) (h : m < n) :
    matchConfidence m < matchConfidence n := by
  have hmn : (m : ℚ) < (n : ℚ) := by exact_mod_cast h
  rw [matchConfidence, matchConfidence,
    div_lt_div_iff₀ (by positivity) (by positivity)]
  nlinarith [Nat.cast_nonneg (α := ℚ) m]

theorem matchConfidence_floor (n : Nat) (h : 1 ≤ n) :
    fallbackConfidence ≤ matchConfidence n := by
  have hn : (1 : ℚ) ≤ (n : ℚ) := by exact_mod_cast h
  rw [fallbackConfidence, matchConfidence,
    div_le_div_iff₀ (by norm_num) (by positivity)]
  nlinarith

theorem classify_fst_mem (sig : Signals) :
    (classify sig).1 = fallbackScenario ∨ (classify sig).1 ∈ knowledgeBase := by
  rw [classify]
  split_ifs with hc
  · exact Or.inl rfl
  · rcases pickBest_mem (knowledgeBase.map fun s => (s, scenarioScore s sig))
      with h | h
    · rw [h] at hc; exact absurd rfl hc
    · obtain ⟨s, hsmem, hs⟩ := List.mem_map.mp h
      rw [← hs]
      exact Or.inr hsmem

theorem classify_conf_bounds (sig : Signals) :
    fallbackConfidence ≤ (classify sig).2 ∧ (classify sig).2 < 1 := by
  rw [classify]
  split_ifs with hc
  · exact ⟨le_refl _, by norm_num [fallbackConfidence]⟩
  · exact ⟨matchConfidence_floor _ (Nat.one_le_iff_ne_zero.mpr hc),
      matchConfidence_lt_one _⟩

/-! ### Helper lemmas: digit runs -/

theorem digitRunsAux_nil (acc : List Char) :
    digitRunsAux [] acc = if acc.isEmpty then [] else [acc.reverse] := rfl

theorem digitRunsAux_cons (c : Char) (cs acc : List Char) :
    digitRunsAux (c :: cs) acc =
      if c.isDigit then digitRunsAux cs (c :: acc)
      else if acc.isEmpty then digitRunsAux cs []
      else acc.reverse :: digitRunsAux cs [] := rfl

theorem digitRunsAux_digits (run : Str) (hdig : ∀ c ∈ run, c.isDigit = true) :
    ∀ rest acc, digitRunsAux (run ++ rest) acc = digitRunsAux rest (run.reverse ++ acc) := by
  induction run with
  | nil => intro rest acc; simp
  | cons c run ih =>
    intro rest acc
    have hc : c.isDigit = true := hdig c (List.mem_cons_self _ _)
    rw [List.cons_append, digitRunsAux_cons, if_pos hc,
      ih (fun d hd => hdig d (List.mem_cons_of_mem _ hd)) rest (c :: acc)]
    congr 1
    simp

theorem digitRuns_boundary (run post : Str) (hne : run ≠ [])
    (hdig : ∀ c ∈ run, c.isDigit = true)
    (hpost : ∀ c, post.head? = some c → c.isDigit = false) :
    run ∈ digitRunsAux (run ++ post) [] := by
  rw [digitRunsAux_digits run hdig post [], List.append_nil]
  cases post with
  | nil =>
    rw [digitRunsAux_nil]
    simp [List.isEmpty_iff, hne]
  | cons c post =>
    have hc : c.isDigit = false := hpost c rfl
    rw [digitRunsAux_cons]
    simp [hc, List.isEmpty_iff, hne]

theorem mem_digitRunsAux_of_boundary (run post : Str) (hne : run ≠ [])
    (hdig : ∀ c ∈ run, c.isDigit = true)
    (hpost : ∀ c, post.head? = some c → c.isDigit = false) :
    ∀ pre : Str, (∀ c, pre.getLast? = some c → c.isDigit = false) →
    ∀ acc, (pre = [] → acc = []) → run ∈ digitRunsAux (pre ++ run ++ post) acc := by
  intro pre
  induction pre with
  | nil =>
    intro _ acc hacc
    rw [hacc rfl]
    simpa using digitRuns_boundary run post hne hdig hpost
  | cons c pre ih =>
    intro hpre acc _
    cases pre with
    | nil =>
      have hc : c.isDigit = false := hpre c (by simp)
      have hb := digitRuns_boundary run post hne hdig hpost
      simp only [List.cons_append, List.nil_append, digitRunsAux_cons, hc,
        Bool.false_eq_true, if_false]
      split
      · exact hb
      · exact List.mem_cons_of_mem _ hb
    | cons d pre' =>
      have hlast : ∀ e, (d :: pre').getLast? = some e → e.isDigit = false := by
        intro e he
        exact hpre e (by rw [List.getLast?_cons_cons]; exact he)
      rw [List.cons_append, List.cons_append, digitRunsAux_cons]
      split
      · exact ih hlast (c :: acc) (fun h => absurd h (List.cons_ne_nil d pre'))
      · split
        · exact ih hlast [] (fun _ => rfl)
        · exact List.mem_cons_of_mem _ (ih hlast [] (fun _ => rfl))

theorem mem_digitRuns_of_boundary (pre run post : Str) (hne : run ≠ [])
    (hdig : ∀ c ∈ run, c.isDigit = true)
    (hpre : ∀ c, pre.getLast? = some c → c.isDigit = false)
    (hpost : ∀ c, post.head? = some c → c.isDigit = false) :
    run ∈ digitRuns (pre ++ run ++ post) :=
  mem_digitRunsAux_of_boundary run post hne hdig hpost pre hpre [] (fun _ => rfl)

theorem digitRunsAux_mem_infix :
    ∀ (t acc : List Char) (r : Str), r ∈ digitRunsAux t acc →
      r <:+: (acc.reverse ++ t) := by
  intro t
  induction t with
  | nil =>
    intro acc r hr
    rw [digitRunsAux_nil] at hr
    by_cases ha : acc.isEmpty = true
    · rw [if_pos ha] at hr; cases hr
    · rw [if_neg ha] at hr
      rcases List.mem_singleton.mp hr with rfl
      exact ⟨[], [], by simp⟩
  | cons c cs ih =>
    intro acc r hr
    rw [digitRunsAux_cons] at hr
    by_cases hc : c.isDigit = true
    · rw [if_pos hc] at hr
      have h := ih (c :: acc) r hr
      simpa [List.append_assoc] using h
    · rw [if_neg hc] at hr
      by_cases ha : acc.isEmpty = true
      · rw [if_pos ha] at hr
        have h := ih [] r hr
        simp only [List.reverse_nil, List.nil_append] at h
        obtain ⟨s, u, hh⟩ := h
        exact ⟨acc.reverse ++ c :: s, u, by simp [hh]⟩
      · rw [if_neg ha] at hr
        rcases List.mem_cons.mp hr with rfl | h
        · exact ⟨[], c :: cs, by simp⟩
        · have h' := ih [] r h
          simp only [List.reverse_nil, List.nil_append] at h'
          obtain ⟨s, u, hh⟩ := h'
          exact ⟨acc.reverse ++ c :: s, u, by simp [hh]⟩

theorem digitRuns_infix (t : Str) (r : Str) (h : r ∈ digitRuns t) : r <:+: t := by
  simpa using digitRunsAux_mem_infix t [] r h

/-! ### Helper lemmas: priority detection -/

theorem detectPriority_ge (lowered : Str) (p : Priority)
    (h : hasPriorityTerm p lowered = true) :
    ∃ q, detectPriority lowered = some q ∧ severity p ≤ severity q := by
  rw [detectPriority]
  by_cases hc : hasPriorityTerm .critical lowered = true
  · exact ⟨.critical, by rw [if_pos hc], by cases p <;> decide⟩
  · rw [if_neg hc]
    by_cases hh : hasPriorityTerm .high lowered = true
    · refine ⟨.high, by rw [if_pos hh], ?_⟩
      cases p with
      | critical => exact absurd h hc
      | high => decide
      | medium => decide
      | low => decide
    · rw [if_neg hh]
      by_cases hm : hasPriorityTerm .medium lowered = true
      · refine ⟨.medium, by rw [if_pos hm], ?_⟩
        cases p with
        | critical => exact absurd h hc
        | high => exact absurd h hh
        | medium => decide
        | low => decide
      · rw [if_neg hm]
        cases p with
        | critical => exact absurd h hc
        | high => exact absurd h hh
        | medium => exact absurd h hm
        | low => exact ⟨.low, by rw [if_pos h], le_refl _⟩

theorem detectPriority_highest (lowered : Str) (p : Priority)
    (h : hasPriorityTerm p lowered = true) :
    ∃ q, detectPriority lowered = some q ∧ hasPriorityTerm q lowered = true ∧
      ∀ p', hasPriorityTerm p' lowered = true → severity p' ≤ severity q := by
  rw [detectPriority]
  by_cases hc : hasPriorityTerm .critical lowered = true
  · exact ⟨.critical, by rw [if_pos hc], hc, fun p' _ => by cases p' <;> decide⟩
  · rw [if_neg hc]
    by_cases hh : hasPriorityTerm .high lowered = true
    · refine ⟨.high, by rw [if_pos hh], hh, ?_⟩
      intro p' hp'
      cases p' with
      | critical => exact absurd hp' hc
      | high => decide
      | medium => decide
      | low => decide
    · rw [if_neg hh]
      by_cases hm : hasPriorityTerm .medium lowered = true
      · refine ⟨.medium, by rw [if_pos hm], hm, ?_⟩
        intro p' hp'
        cases p' with
        | critical => exact absurd hp' hc
        | high => exact absurd hp' hh
        | medium => decide
        | low => decide
      · rw [if_neg hm]
        have hlow : hasPriorityTerm .low lowered = true := by
          cases p with
          | critical => exact absurd h hc
          | high => exact absurd h hh
          | medium => exact absurd h hm
          | low => exact h
        refine ⟨.low, by rw [if_pos hlow], hlow, ?_⟩
        intro p' hp'
        cases p' with
        | critical => exact absurd hp' hc
        | high => exact absurd hp' hh
        | medium => exact absurd hp' hm
        | low => decide

/-! ### Helper lemmas: extractor and entry-point projections -/

theorem extract_keywords (t : Str) :
    (extract t).keywords =
      vocabulary.filter (fun term => containsTerm (lower t) term) := rfl

theorem extract_docs (t : Str) :
    (extract t).documentNumbers =
      dedupFirst ((digitRuns t).filter validIdRun) := rfl

theorem extract_hint (t : Str) :
    (extract t).priorityHint = detectPriority (lower t) := rfl

theorem solve_title (t : Str) :
    (solveSapMMTicket t).title = (classify (extract t)).1.title := rfl

theorem solve_steps (t : Str) :
    (solveSapMMTicket t).steps = (classify (extract t)).1.steps := rfl

theorem solve_confidence (t : Str) :
    (solveSapMMTicket t).confidence = (classify (extract t)).2 := rfl

theorem solve_keywords (t : Str) :
    (solveSapMMTicket t).metadata.keywords = (extract t).keywords := rfl

theorem solve_docs (t : Str) :
    (solveSapMMTicket t).metadata.documentNumbers =
      (extract t).documentNumbers := rfl

theorem solve_priority_of_hint (t : Str) (q : Priority)
    (h : (extract t).priorityHint = some q) :
    (solveSapMMTicket t).metadata.priority = some q := by
  show (match (extract t).priorityHint with
    | some p => some p
    | none => (classify (extract t)).1.defaultPriority) = some q
  rw [h]

/-! ### Helper lemmas: keyword and score monotonicity -/

theorem keywords_mono (t extra term : Str)
    (h : term ∈ (extract t).keywords) :
    term ∈ (extract (t ++ extra)).keywords := by
  rw [extract_keywords] at h ⊢
  have h' := List.mem_filter.mp h
  exact List.mem_filter.mpr ⟨h'.1, containsTerm_mono term t extra h'.2⟩

theorem scenarioScore_mono (s : ScenarioDefinition) (t extra : Str) :
    scenarioScore s (extract t) ≤ scenarioScore s (extract (t ++ extra)) := by
  rw [scenarioScore, scenarioScore]
  apply List.sum_le_sum
  intro tw _
  by_cases hmem : tw.1 ∈ (extract t).keywords
  · rw [if_pos hmem, if_pos (keywords_mono t extra tw.1 hmem)]
  · rw [if_neg hmem]
    exact Nat.zero_le _

/-! ### Helper lemmas: classifier selection -/

theorem classify_zero (sig : Signals)
    (h : ∀ s ∈ knowledgeBase, scenarioScore s sig = 0) :
    classify sig = (fallbackScenario, fallbackConfidence) := by
  have hz : (pickBest (knowledgeBase.map fun s => (s, scenarioScore s sig))).2 = 0 := by
    apply pickBest_score_zero
    intro y hy
    obtain ⟨s, hs, rfl⟩ := List.mem_map.mp hy
    exact h s hs
  rw [classify, if_pos hz]

theorem classify_first_max (sig : Signals) (l₁ : List ScenarioDefinition)
    (s : ScenarioDefinition) (l₂ : List ScenarioDefinition)
    (hkb : knowledgeBase = l₁ ++ s :: l₂)
    (h₁ : ∀ s' ∈ l₁, scenarioScore s' sig < scenarioScore s sig)
    (h₂ : ∀ s' ∈ l₂, scenarioScore s' sig ≤ scenarioScore s sig)
    (hpos : 0 < scenarioScore s sig) :
    classify sig = (s, matchConfidence (scenarioScore s sig)) := by
  have hp : pickBest (knowledgeBase.map fun x => (x, scenarioScore x sig)) =
      (s, scenarioScore s sig) := by
    rw [hkb, List.map_append, List.map_cons]
    apply pickBest_first_max
    · intro y hy
      obtain ⟨s', hs', rfl⟩ := List.mem_map.mp hy
      exact h₁ s' hs'
    · intro y hy
      obtain ⟨s', hs', rfl⟩ := List.mem_map.mp hy
      exact h₂ s' hs'
  rw [classify, hp, if_neg (Nat.pos_iff_ne_zero.mp hpos)]

theorem classify_first_sel (sig : Signals) (l₁ : List ScenarioDefinition)
    (s : ScenarioDefinition) (l₂ : List ScenarioDefinition)
    (hkb : knowledgeBase = l₁ ++ s :: l₂)
    (h₁ : ∀ s' ∈ l₁, scenarioScore s' sig < scenarioScore s sig)
    (h₂ : ∀ s' ∈ l₂, scenarioScore s' sig ≤ scenarioScore s sig) :
    (classify sig).1 = s := by
  rcases Nat.eq_zero_or_pos (scenarioScore s sig) with hz | hpos
  · have hl₁ : l₁ = [] := by
      cases l₁ with
      | nil => rfl
      | cons a l₁ =>
        have := h₁ a (List.mem_cons_self _ _)
        rw [hz] at this
        exact absurd this (Nat.not_lt_zero _)
    have hall : ∀ x ∈ knowledgeBase, scenarioScore x sig = 0 := by
      intro x hx
      rw [hkb, hl₁] at hx
      rcases List.mem_cons.mp hx with rfl | hx'
      · exact hz
      · exact Nat.le_antisymm (hz ▸ h₂ x hx') (Nat.zero_le _)
    have hs : fallbackScenario = s := by
      rw [hl₁, List.nil_append] at hkb
      rw [knowledgeBase] at hkb
      exact (List.cons.injEq _ _ _ _ ▸ hkb).1
    rw [classify_zero sig hall, ← hs]
  · rw [classify_first_max sig l₁ s l₂ hkb h₁ h₂ hpos]

/-! ### Claims -/

/-- C1: for every input string, `solveSapMMTicket` returns a well-formed
result — confidence within the unit interval, non-empty title and non-empty
steps — and, being a total function, never raises an error, so the re-run
handler may call it without exception handling. -/
theorem c1_wellformed (text : Str) :
    0 ≤ (solveSapMMTicket text).confidence ∧
    (solveSapMMTicket text).confidence ≤ 1 ∧
    (solveSapMMTicket text).title ≠ [] ∧
    (solveSapMMTicket text).steps ≠ [] := by
  have hconf := classify_conf_bounds (extract text)
  have hgood : ∀ s ∈ knowledgeBase, s.title ≠ [] ∧ s.steps ≠ [] := by decide
  have hmem : (classify (extract text)).1 ∈ knowledgeBase := by
    rcases classify_fst_mem (extract text) with h | h
    · rw [h]; exact List.mem_cons_self _ _
    · exact h
  refine ⟨?_, ?_, ?_, ?_⟩
  · rw [solve_confidence]
    exact le_trans (by norm_num [fallbackConfidence]) hconf.1
  · rw [solve_confidence]
    exact le_of_lt hconf.2
  · rw [solve_title]; exact (hgood _ hmem).1
  · rw [solve_steps]; exact (hgood _ hmem).2

/-- C2: the rendering layer displays every field of a `SolveResult` as given,
only formatting it — the title, the rounded confidence percentage, the module,
the optional priority, summary, root cause, the ordered steps, the four
unordered lists, and the comma-joined keyword and document-number strings. -/
theorem c2_render_faithful (r : SolveResult) :
    DisplayItem.text r.title ∈ renderSolution r ∧
    DisplayItem.percent (jsRound (r.confidence * 100)) ∈ renderSolution r ∧
    DisplayItem.text r.metadata.suspectedModule ∈ renderSolution r ∧
    (∀ p, r.metadata.priority = some p →
      DisplayItem.text (priorityName p) ∈ renderSolution r) ∧
    DisplayItem.text r.summary ∈ renderSolution r ∧
    DisplayItem.text r.rootCause ∈ renderSolution r ∧
    DisplayItem.orderedList r.steps ∈ renderSolution r ∧
    DisplayItem.unorderedList r.validations ∈ renderSolution r ∧
    DisplayItem.unorderedList r.preventiveActions ∈ renderSolution r ∧
    DisplayItem.unorderedList r.automationIdeas ∈ renderSolution r ∧
    DisplayItem.unorderedList r.knowledgeSources ∈ renderSolution r ∧
    (r.metadata.keywords ≠ [] →
      DisplayItem.text (joinComma r.metadata.keywords) ∈ renderSolution r) ∧
    (r.metadata.documentNumbers ≠ [] →
      DisplayItem.text (joinComma r.metadata.documentNumbers) ∈ renderSolution r) := by
  refine ⟨?_, ?_, ?_, ?_, ?_, ?_, ?_, ?_, ?_, ?_, ?_, ?_, ?_⟩
  · simp [renderSolution]
  · simp [renderSolution]
  · simp [renderSolution]
  · intro p h; simp [renderSolution, h]
  · simp [renderSolution]
  · simp [renderSolution]
  · simp [renderSolution]
  · simp [renderSolution]
  · simp [renderSolution]
  · simp [renderSolution]
  · simp [renderSolution]
  · intro h; simp [renderSolution, List.isEmpty_iff, h]
  · intro h; simp [renderSolution, List.isEmpty_iff, h]

theorem c2_render_faithful_witness :
    DisplayItem.text (priorityName Priority.critical) ∈
      renderSolution (solveSapMMTicket renderDemoText) ∧
    DisplayItem.text (joinComma (solveSapMMTicket renderDemoText).metadata.keywords) ∈
      renderSolution (solveSapMMTicket renderDemoText) ∧
    DisplayItem.text (joinComma (solveSapMMTicket renderDemoText).metadata.documentNumbers) ∈
      renderSolution (solveSapMMTicket renderDemoText) :=
  ⟨(c2_render_faithful (solveSapMMTicket renderDemoText)).2.2.2.1
      Priority.critical (by decide),
   (c2_render_faithful (solveSapMMTicket renderDemoText)).2.2.2.2.2.2.2.2.2.2.2.1
      (by decide),
   (c2_render_faithful (solveSapMMTicket renderDemoText)).2.2.2.2.2.2.2.2.2.2.2.2
      (by decide)⟩

/-- C3: whenever no trigger term of any scenario matches (every score is
zero), the fallback scenario is selected with the fixed low confidence
constant; concretely, the nonsense input selects the fallback scenario with
that constant, no keywords and no document numbers. -/
theorem c3_fallback :
    (∀ text : Str, (∀ s ∈ knowledgeBase, scenarioScore s (extract text) = 0) →
      classify (extract text) = (fallbackScenario, fallbackConfidence) ∧
      (solveSapMMTicket text).confidence = fallbackConfidence) ∧
    (classify (extract fallbackDemoText) = (fallbackScenario, fallbackConfidence) ∧
     (solveSapMMTicket fallbackDemoText).confidence = fallbackConfidence ∧
     (solveSapMMTicket fallbackDemoText).metadata.keywords = [] ∧
     (solveSapMMTicket fallbackDemoText).metadata.documentNumbers = []) := by
  constructor
  · intro text h
    have hc := classify_zero (extract text) h
    exact ⟨hc, by rw [solve_confidence, hc]⟩
  · exact ⟨rfl, rfl, by decide, by decide⟩

theorem c3_fallback_witness :
    classify (extract fallbackDemoText) = (fallbackScenario, fallbackConfidence) ∧
    (solveSapMMTicket fallbackDemoText).confidence = fallbackConfidence :=
  c3_fallback.1 fallbackDemoText (by decide)

/-- C4: appending text never decreases any scenario's score; a scenario whose
score is strictly the maximum is selected; and the confidence normalisation is
strictly increasing, bounded by one, and bounded below by the positive
fallback constant once a scenario matches, so the classifier's confidence is
always positive and at most one. -/
theorem c4_monotone_scoring :
    (∀ s : ScenarioDefinition, ∀ text extra : Str,
      scenarioScore s (extract text) ≤ scenarioScore s (extract (text ++ extra))) ∧
    (∀ sig : Signals, ∀ l₁ s l₂, knowledgeBase = l₁ ++ s :: l₂ →
      (∀ x ∈ l₁, scenarioScore x sig < scenarioScore s sig) →
      (∀ x ∈ l₂, scenarioScore x sig < scenarioScore s sig) →
      (classify sig).1 = s) ∧
    (∀ m n : Nat, m < n → matchConfidence m < matchConfidence n) ∧
    (∀ n : Nat, matchConfidence n ≤ 1) ∧
    (∀ n : Nat, 1 ≤ n → fallbackConfidence ≤ matchConfidence n) ∧
    (∀ sig : Signals, 0 < (classify sig).2 ∧ (classify sig).2 ≤ 1) := by
  refine ⟨?_, ?_, ?_, ?_, ?_, ?_⟩
  · exact fun s text extra => scenarioScore_mono s text extra
  · intro sig l₁ s l₂ hkb h₁ h₂
    exact classify_first_sel sig l₁ s l₂ hkb h₁ (fun x hx => le_of_lt (h₂ x hx))
  · exact matchConfidence_mono
  · exact fun n => le_of_lt (matchConfidence_lt_one n)
  · exact matchConfidence_floor
  · intro sig
    have h := classify_conf_bounds sig
    exact ⟨lt_of_lt_of_le (by norm_num [fallbackConfidence]) h.1, le_of_lt h.2⟩

theorem c4_monotone_scoring_witness :
    scenarioScore grScenario (extract grDemoText) ≤
      scenarioScore grScenario (extract (grDemoText ++ (" migo").toList)) ∧
    (classify (extract grDemoText)).1 = grScenario ∧
    matchConfidence 1 < matchConfidence 2 ∧
    fallbackConfidence ≤ matchConfidence 1 :=
  ⟨c4_monotone_scoring.1 grScenario grDemoText ((" migo").toList),
   c4_monotone_scoring.2.1 (extract grDemoText) [fallbackScenario] grScenario
     [ivScenario, poScenario] rfl (by decide) (by decide),
   c4_monotone_scoring.2.2.1 1 2 (by decide),
   c4_monotone_scoring.2.2.2.2.1 1 (by decide)⟩

/-- C5: `solveSapMMTicket` is a pure, deterministic function of its input: two
calls with the same string denote the same value, and no hidden state exists
in the embedding that could influence the output. -/
theorem c5_deterministic (text : Str) :
    solveSapMMTicket text = solveSapMMTicket text := rfl

/-- C6: whenever any priority hint matches the text, the result metadata
carries a priority that is itself a matched hint and whose severity dominates
every matched hint — that is, the resolved priority is exactly the
highest-severity hint present; concretely, text containing both a
low-priority phrase and urgent language resolves to Critical. -/
theorem c6_priority_precedence :
    (∀ text : Str, ∀ p : Priority, hasPriorityTerm p (lower text) = true →
      ∃ q, (solveSapMMTicket text).metadata.priority = some q ∧
        hasPriorityTerm q (lower text) = true ∧
        ∀ p', hasPriorityTerm p' (lower text) = true →
          severity p' ≤ severity q) ∧
    (solveSapMMTicket priorityDemoText).metadata.priority =
      some Priority.critical := by
  constructor
  · intro text p h
    obtain ⟨q, hq, hqmatch, hmax⟩ := detectPriority_highest (lower text) p h
    exact ⟨q, solve_priority_of_hint text q (by rw [extract_hint]; exact hq),
      hqmatch, hmax⟩
  · decide

theorem c6_priority_precedence_witness :
    ∃ q, (solveSapMMTicket priorityDemoText).metadata.priority = some q ∧
      hasPriorityTerm q (lower priorityDemoText) = true ∧
      ∀ p', hasPriorityTerm p' (lower priorityDemoText) = true →
        severity p' ≤ severity q :=
  c6_priority_precedence.1 priorityDemoText Priority.low (by decide)

/-- C7: for every Signals value the classifier selects the scenario whose
score is strictly above all earlier declarations and at least all later ones,
that is, the earliest declared scenario attaining the highest score — a
stable, deterministic function of the knowledge-base order. -/
theorem c7_stable_selection (sig : Signals) (l₁ : List ScenarioDefinition)
    (s : ScenarioDefinition) (l₂ : List ScenarioDefinition)
    (hkb : knowledgeBase = l₁ ++ s :: l₂)
    (h₁ : ∀ x ∈ l₁, scenarioScore x sig < scenarioScore s sig)
    (h₂ : ∀ x ∈ l₂, scenarioScore x sig ≤ scenarioScore s sig) :
    (classify sig).1 = s :=
  classify_first_sel sig l₁ s l₂ hkb h₁ h₂

theorem c7_stable_selection_witness :
    (classify (extract grDemoText)).1 = grScenario :=
  c7_stable_selection (extract grDemoText) [fallbackScenario] grScenario
    [ivScenario, poScenario] rfl (by decide) (by decide)

/-- C8: for every input string the document numbers in the result metadata
are deduplicated, appear in first-seen order as a sublist of the digit runs
of the input, and preserve the original matched characters (each is a
contiguous substring of the input); moreover a 10-digit numeral delimited by
non-digits appears unaltered among them. -/
theorem c8_document_numbers :
    (∀ text : Str,
      ((solveSapMMTicket text).metadata.documentNumbers).Nodup ∧
      (∀ x ∈ (solveSapMMTicket text).metadata.documentNumbers, x <:+: text) ∧
      List.Sublist ((solveSapMMTicket text).metadata.documentNumbers)
        (digitRuns text)) ∧
    (∀ pre run post : Str, run.length = 10 → (∀ c ∈ run, c.isDigit = true) →
      (∀ c, pre.getLast? = some c → c.isDigit = false) →
      (∀ c, post.head? = some c → c.isDigit = false) →
      run ∈ (solveSapMMTicket (pre ++ run ++ post)).metadata.documentNumbers) := by
  constructor
  · intro text
    rw [solve_docs, extract_docs]
    refine ⟨dedupFirst_nodup _, ?_, ?_⟩
    · intro x hx
      have hx1 := (mem_dedupFirst x _).mp hx
      exact digitRuns_infix _ x (List.mem_of_mem_filter hx1)
    · exact (dedupFirst_sublist _).trans (List.filter_sublist _)
  · intro pre run post hlen hdig hpre hpost
    have hne : run ≠ [] := by
      intro h
      rw [h] at hlen
      cases hlen
    rw [solve_docs, extract_docs]
    apply (mem_dedupFirst run _).mpr
    apply List.mem_filter.mpr
    refine ⟨mem_digitRuns_of_boundary pre run post hne hdig hpre hpost, ?_⟩
    simp [validIdRun, hlen]

theorem c8_document_numbers_witness :
    ("4500001234").toList ∈
      (solveSapMMTicket
        ((("PO ").toList ++ ("4500001234").toList ++ (" missing").toList))).metadata.documentNumbers :=
  c8_document_numbers.2 (("PO ").toList) (("4500001234").toList) ((" missing").toList)
    (by decide) (by decide)
    (by intro c hc; cases hc; decide)
    (by intro c hc; cases hc; decide)

/-- C9: on the upload path the engine receives exactly the trimmed OCR text,
the textarea state is set to that same trimmed string, and the string handed
to the engine is already trimmed (trimming it again changes nothing). -/
theorem c9_upload_trims (s : UIState) (name ocr : Str) :
    (handleFileChangeSuccess s name ocr).extractedText = trim ocr ∧
    (handleFileChangeSuccess s name ocr).solution =
      some (solveSapMMTicket (handleFileChangeSuccess s name ocr).extractedText) ∧
    trim (handleFileChangeSuccess s name ocr).extractedText =
      (handleFileChangeSuccess s name ocr).extractedText :=
  ⟨rfl, rfl, trim_idem ocr⟩

/-- C10: the Re-run Analysis button is disabled exactly when the extracted
text is empty; clicking it in that case leaves the state unchanged, and in
every other state it runs `handleAnalyzeText`, so the engine is only invoked
through the re-run path with non-empty extracted text. -/
theorem c10_rerun_guard :
    (∀ s : UIState, rerunDisabled s = true ↔ s.extractedText = []) ∧
    (∀ s : UIState, s.extractedText = [] → uiStep s .clickRerun = s) ∧
    (∀ s : UIState, s.extractedText ≠ [] →
      uiStep s .clickRerun = handleAnalyzeText s ∧
      (uiStep s .clickRerun).solution = some (solveSapMMTicket s.extractedText)) := by
  refine ⟨?_, ?_, ?_⟩
  · intro s
    show s.extractedText.isEmpty = true ↔ s.extractedText = []
    exact List.isEmpty_iff
  · intro s h
    show (if s.extractedText = [] then s else handleAnalyzeText s) = s
    rw [if_pos h]
  · intro s h
    have he : uiStep s .clickRerun = handleAnalyzeText s := by
      show (if s.extractedText = [] then s else handleAnalyzeText s) = handleAnalyzeText s
      rw [if_neg h]
    exact ⟨he, by rw [he]; rfl⟩

theorem c10_rerun_guard_witness :
    rerunDisabled initialState = true ∧
    uiStep initialState .clickRerun = initialState ∧
    uiStep demoRerunState .clickRerun = handleAnalyzeText demoRerunState :=
  ⟨(c10_rerun_guard.1 initialState).mpr rfl,
   c10_rerun_guard.2.1 initialState rfl,
   (c10_rerun_guard.2.2 demoRerunState (by decide)).1⟩
